import Mathlib

/-!
Shallow embedding of the Phoenix shell front-end (repository `NicViviers/Phoenix`,
files `src/input_lexer.rs`, `src/input_parser.rs`, `src/ast.rs`, `src/engine.rs`,
`src/main.rs`) together with theorems settling the frozen claims C1..C10.

The embedding follows the Linux configuration of the source
(`#[cfg(target_os = "linux")]`): `SLASH = '/'`, `IDENT_EXCEPT = ['-', '.']`,
no drive-letter path prefix, extension list `[""]` in `find_executable`.
The input line is modelled as a `List Char` of byte values (the program casts
each byte to `char`; all inputs exercised here are ASCII, where Rust's Unicode
character classifiers agree with the ASCII classifiers used below).

Rust `while` loops are modelled as fuel-indexed structural recursions; every
call site passes fuel that exceeds the number of remaining buffer positions,
so the fuel never runs out on the executions described by the theorems (each
iteration advances `index` and every loop stops once `index` reaches the end
of the buffer, where the current character becomes the `0x03` default).
-/

namespace Phoenix

/-- ASCII restriction of Rust `char::is_alphabetic`. -/
def isAlphabetic (c : Char) : Bool := c.isAlpha

/-- ASCII restriction of Rust `char::is_numeric`. -/
def isNumeric (c : Char) : Bool := c.isDigit

/-- ASCII restriction of Rust `char::is_alphanumeric`. -/
def isAlphanumeric (c : Char) : Bool := isAlphabetic c || isNumeric c

/-- ASCII restriction of Rust `char::is_whitespace`
(space, `\t`, `\n`, vertical tab, form feed, `\r`). -/
def isWhitespaceChar (c : Char) : Bool :=
  c = ' ' || c = '\t' || c = '\n' || c = '\x0b' || c = '\x0c' || c = '\r'

/-- Source constant `SLASH` (`input_lexer.rs` line 8, Linux): `'/'`. -/
def SLASH : Char := '/'

/-- Source constant `IDENT_EXCEPT` (`input_lexer.rs` line 15, Linux): `['-', '.']`. -/
def IDENT_EXCEPT : List Char := ['-', '.']

/-- The `0` default used by `InputLexer::new` (`source.get(i).unwrap_or(&0)`). -/
def nulChar : Char := '\x00'

/-- The `0x03` END OF TEXT default used by `InputLexer::next_char`
(`source.get(i).unwrap_or(&0x03u8)`). -/
def etxChar : Char := '\x03'

/-- Half-open byte range, Rust `Range<usize>` (`start .. stop`). -/
structure Span where
  start : Nat
  stop : Nat
  deriving DecidableEq, Repr

/-- Type `TokenType` of `input_lexer.rs`. -/
inductive TokenType where
  | Identifier
  | Number
  | Path
  | String
  | Pipe
  | RedirIn
  | RedirOut
  | And
  | Whitespace
  | EOF
  deriving DecidableEq, Repr

/-- Type `Token { typ, start, end }` of `input_lexer.rs` (`end` is a Lean
keyword, rendered `stop`). -/
structure Token where
  typ : TokenType
  start : Nat
  stop : Nat
  deriving DecidableEq, Repr

/-- Lexer state: the byte buffer and the scan position. `cur_char` and
`peek_char` are derived (see `curChar`, `peekChar`): the stored Rust fields
are always exactly those functions of `source` and `index`, because `index`
only moves forward via `next_char`. -/
structure InputLexer where
  source : List Char
  index : Nat
  deriving DecidableEq, Repr

/-- Constructor `InputLexer::new`: `cur_char`/`peek_char` default to byte `0` at
construction; `next_char` defaults them to byte `0x03` instead. -/
def InputLexer.new (source : List Char) : InputLexer := ⟨source, 0⟩

/-- The value of the `cur_char` field: `source.get(0).unwrap_or(&0)` at
construction (index 0), `source.get(index).unwrap_or(&0x03)` after any
`next_char`. -/
def curChar (l : InputLexer) : Char :=
  if l.index = 0 then l.source.getD 0 nulChar else l.source.getD l.index etxChar

/-- The value of the `peek_char` field (one position of lookahead). -/
def peekChar (l : InputLexer) : Char :=
  if l.index = 0 then l.source.getD 1 nulChar else l.source.getD (l.index + 1) etxChar

/-- Method `InputLexer::next_char`: advance the position by one. -/
def nextChar (l : InputLexer) : InputLexer := ⟨l.source, l.index + 1⟩

/-- Result of one `next_token` call.  `tok` is `Some(Token)`; `stop` is the
silent `None` of the `0x03` sentinel arm; `err` is `None` after printing a
diagnostic whose label carries the given span; `panic` is an
`unreachable!`/`unimplemented!` abort of the whole process. -/
inductive LexResult where
  | tok (t : Token) (st : InputLexer)
  | stop (st : InputLexer)
  | err (sp : Span) (st : InputLexer)
  | panic (msg : String)
  deriving DecidableEq, Repr

/-- Loop body condition of the identifier arm:
`cur_char.is_alphanumeric() || IDENT_EXCEPT.contains(&cur_char)`. -/
def identCond (c : Char) : Bool := isAlphanumeric c || IDENT_EXCEPT.contains c

/-- Loop `while cur_char.is_alphanumeric() || IDENT_EXCEPT.contains(&cur_char)`
of the identifier arm. -/
def identLoop : Nat → InputLexer → InputLexer
  | 0, l => l
  | fuel + 1, l => if identCond (curChar l) then identLoop fuel (nextChar l) else l

/-- Loop `while self.cur_char.is_numeric()` of the number arm. -/
def numLoop : Nat → InputLexer → InputLexer
  | 0, l => l
  | fuel + 1, l => if isNumeric (curChar l) then numLoop fuel (nextChar l) else l

/-- Loop `while cur_char.is_alphanumeric() || peek_char == SLASH` of the
relative-forward path arm (note the *peek* comparison in the source). -/
def relFwdLoop : Nat → InputLexer → InputLexer
  | 0, l => l
  | fuel + 1, l =>
    if isAlphanumeric (curChar l) || peekChar l = SLASH then relFwdLoop fuel (nextChar l) else l

/-- Loop `while cur_char.is_alphanumeric() || cur_char == SLASH` of the
relative-backward and full path arms. -/
def pathLoop : Nat → InputLexer → InputLexer
  | 0, l => l
  | fuel + 1, l =>
    if isAlphanumeric (curChar l) || curChar l = SLASH then pathLoop fuel (nextChar l) else l

/-- The string-consuming loop of the string arm
(`while self.index < self.source.len() { match self.cur_char { '\\' => skip two,
quote => close, _ => advance } }`).  Returns the final state and the `closed`
flag. -/
def stringLoop : Nat → Char → InputLexer → InputLexer × Bool
  | 0, _, l => (l, false)
  | fuel + 1, quote, l =>
    if l.index < l.source.length then
      if curChar l = '\\' then stringLoop fuel quote (nextChar (nextChar l))
      else if curChar l = quote then (nextChar l, true)
      else stringLoop fuel quote (nextChar l)
    else (l, false)

/-- Slice `&self.source[start .. stop]` as a list of characters. -/
def sliceChars (source : List Char) (start stop : Nat) : List Char :=
  (source.drop start).take (stop - start)

/-- Predicate `InputLexer::path_cond` (Linux): `c == '.' || c == SLASH` (the peek
character is ignored on Linux). -/
def pathCond (c : Char) : Bool := c = '.' || c = SLASH

/-- Identifier arm of `next_token` (first match arm): consume
alphanumeric/exception characters, then reclassify as `Path` if the captured
text contains a `'.'`. -/
def identArm (l : InputLexer) : LexResult :=
  let start := l.index
  let l' := identLoop (l.source.length + 2) l
  if (sliceChars l.source start l'.index).contains '.' then
    .tok ⟨.Path, start, l'.index⟩ l'
  else
    .tok ⟨.Identifier, start, l'.index⟩ l'

/-- Number arm of `next_token`. -/
def numberArm (l : InputLexer) : LexResult :=
  let start := l.index
  let l' := numLoop (l.source.length + 2) l
  .tok ⟨.Number, start, l'.index⟩ l'

/-- Path arm of `next_token` (the inner `match` of the `path_cond` arm),
including both `expect_char!` checks (which print a diagnostic with span
`index .. index + 1` and return `None` when the expected character is
absent) and the `_ => unimplemented!()` fallback. -/
def pathArm (l : InputLexer) : LexResult :=
  let c := curChar l
  if c = '.' then
    if peekChar l = SLASH then
      -- relative forward path
      let start := l.index
      let l1 := nextChar l
      if curChar l1 = SLASH then
        let l2 := relFwdLoop (l.source.length + 2) (nextChar l1)
        .tok ⟨.Path, start, l2.index⟩ l2
      else .err ⟨l1.index, l1.index + 1⟩ l1
    else if peekChar l = '.' then
      -- relative backward path
      let start := l.index
      let l1 := nextChar l
      if curChar l1 = '.' then
        let l2 := nextChar l1
        if curChar l2 = SLASH then
          let l3 := pathLoop (l.source.length + 2) (nextChar l2)
          .tok ⟨.Path, start, l3.index⟩ l3
        else .err ⟨l2.index, l2.index + 1⟩ l2
      else .err ⟨l1.index, l1.index + 1⟩ l1
    else
      -- "Unexpected end of path" diagnostic, then `None`
      let errorOffset := if l.source.length = 1 then 1 else 2
      .err ⟨l.index, l.index + errorOffset⟩ l
  else if (isAlphabetic c && peekChar l = ':') || c = SLASH then
    -- full path (on Linux no drive-letter `expect_char!` checks are compiled)
    let start := l.index
    let l1 := pathLoop (l.source.length + 2) (nextChar l)
    .tok ⟨.Path, start, l1.index⟩ l1
  else
    .panic "unimplemented"

/-- String arm of `next_token` (`'"' | '\''`). -/
def stringArm (l : InputLexer) : LexResult :=
  let quote := curChar l
  let start := l.index
  let res := stringLoop (l.source.length + 2) quote (nextChar l)
  if res.2 then .tok ⟨.String, start, res.1.index⟩ res.1
  else .err ⟨start, res.1.index - 1⟩ res.1

/-- Single-character operator arms (`|`, `<`, `>`, `&`): advance, then emit a
token with span `index - 1 .. index` (indices read after the advance). -/
def opArm (typ : TokenType) (l : InputLexer) : LexResult :=
  let l' := nextChar l
  .tok ⟨typ, l'.index - 1, l'.index⟩ l'

/-- Method `InputLexer::next_token`, with the match arms in source order.  The guard
of the first arm is `(c.is_alphabetic() && peek_char != ':') ||
IDENT_EXCEPT.contains(&c)`; note that on Linux this captures `'.'` (a member
of `IDENT_EXCEPT`) before the `path_cond` arm can see it. -/
def nextToken (l : InputLexer) : LexResult :=
  let c := curChar l
  if (isAlphabetic c && !(peekChar l = ':')) || IDENT_EXCEPT.contains c then identArm l
  else if isNumeric c then numberArm l
  else if pathCond c then pathArm l
  else if c = '"' || c = '\'' then stringArm l
  else if c = '|' then opArm .Pipe l
  else if c = '<' then opArm .RedirIn l
  else if c = '>' then opArm .RedirOut l
  else if c = '&' then opArm .And l
  else if isWhitespaceChar c then .tok ⟨.Whitespace, 0, 0⟩ (nextChar l)
  else if c = nulChar then .tok ⟨.EOF, 0, 0⟩ l
  else if c = etxChar then .stop l
  else .panic "No matching token implementation found for this input"

/-- How the token-collection loop of `main` ended: `ok` is the silent `None`
of the `0x03` sentinel, `errored` is `None` after a printed diagnostic,
`panicked` aborts the process, `outOfFuel` marks fuel exhaustion (reachable
only when a literal NUL byte makes the real iterator diverge). -/
inductive LexOutcome where
  | ok
  | errored (sp : Span)
  | panicked (msg : String)
  | outOfFuel
  deriving DecidableEq, Repr

/-- Collection loop `lexer.collect()` of `main`: repeatedly call `next_token` until it returns
`None`, gathering the produced tokens. -/
def runLexer : Nat → InputLexer → List Token × LexOutcome
  | 0, _ => ([], .outOfFuel)
  | fuel + 1, l =>
    match nextToken l with
    | .tok t l' => let r := runLexer fuel l'; (t :: r.1, r.2)
    | .stop _ => ([], .ok)
    | .err sp _ => ([], .errored sp)
    | .panic m => ([], .panicked m)

/-- Lex one whole input line the way `main` does.  Every token consumes at
least one character except the NUL (`'\0'`) EOF arm, so `length + 2` fuel is
exhausted only on inputs containing a literal NUL byte (where the real
program's `collect()` loops forever). -/
def lexLine (line : List Char) : List Token × LexOutcome :=
  runLexer (line.length + 2) (InputLexer.new line)

/-! ## Parser (`input_parser.rs`, data model from `ast.rs` as actually used:
the parser and engine store `Range<usize>` spans into the line's source
buffer for the command, the arguments and the redirect file names). -/

/-- Type `StreamStrategy` of `ast.rs`. -/
inductive StreamStrategy where
  | Inherit
  | PipeFromFile (sp : Span)
  | PipeToFile (sp : Span)
  | PipeToStdin
  deriving DecidableEq, Repr

/-- Type `Program` of `ast.rs`: command span, argument spans, stdio strategies. -/
structure Program where
  program : Span
  argv : List Span
  stdin : StreamStrategy
  stdout : StreamStrategy
  deriving DecidableEq, Repr

/-- Type `Spanned<T>` of `ast.rs`. -/
structure Spanned (T : Type) where
  value : T
  span : Span
  deriving DecidableEq, Repr

/-- Type `Module` of `ast.rs`. -/
structure Module where
  stmts : List (Spanned Program)
  deriving DecidableEq, Repr

/-- Parser state (`InputParser`): the whitespace-filtered token list and the
read position.  The retained `source` string is used only to render
diagnostics and does not affect which module is produced, so it is omitted. -/
structure InputParser where
  tokens : List Token
  index : Nat
  deriving DecidableEq, Repr

/-- Method `InputParser::next_token`: a synthesized `default_token!(EOF)` (span
`0..0`) past the end of the list, otherwise the token at `index`, advancing. -/
def pNextToken (p : InputParser) : Token × InputParser :=
  if p.index ≥ p.tokens.length then (⟨.EOF, 0, 0⟩, p)
  else (p.tokens.getD p.index ⟨.EOF, 0, 0⟩, ⟨p.tokens, p.index + 1⟩)

/-- Method `InputParser::expect_token`: take one token; `None` (after printing a
diagnostic) unless its type is in the expected list. -/
def expectToken (typs : List TokenType) (p : InputParser) : Option (Token × InputParser) :=
  let r := pNextToken p
  if typs.contains r.1.typ then some r else none

/-- The token types that end the argument-collection loop of
`process_command`. -/
def terminators : List TokenType := [.EOF, .And, .Pipe, .RedirIn, .RedirOut]

/-- The argument-collection loop of `process_command`: push `start .. end`
spans until a terminator token arrives; return the collected spans, the
terminator and the state after it. -/
def argvLoop : Nat → InputParser → List Span → List Span × Token × InputParser
  | 0, p, acc => (acc, ⟨.EOF, 0, 0⟩, p)
  | fuel + 1, p, acc =>
    let r := pNextToken p
    if terminators.contains r.1.typ then (acc, r.1, r.2)
    else argvLoop fuel r.2 (acc ++ [⟨r.1.start, r.1.stop⟩])

/-- Method `InputParser::process_command`: parse one statement, or `None` on
end-of-input or on any expectation failure (the caller cannot tell these
apart).  The final `_ => unreachable!()` of the source cannot fire because
`argvLoop` only returns terminator tokens; it is rendered as `none`. -/
def processCommand (p : InputParser) : Option (Spanned Program × InputParser) :=
  let r0 := pNextToken p
  if r0.1.typ = .EOF then none
  else
    let p2 : InputParser := ⟨r0.2.tokens, r0.2.index - 1⟩
    match expectToken [.Path, .Identifier] p2 with
    | none => none
    | some (cmd, p3) =>
      let r := argvLoop (p3.tokens.length + 1) p3 []
      let argv := r.1
      let tok := r.2.1
      let p4 := r.2.2
      match tok.typ with
      | .Pipe =>
        some (⟨⟨⟨cmd.start, cmd.stop⟩, argv, .Inherit, .PipeToStdin⟩,
               ⟨cmd.start, tok.stop⟩⟩, p4)
      | .RedirIn =>
        match expectToken [.Path] p4 with
        | none => none
        | some (fh, p5) =>
          some (⟨⟨⟨cmd.start, cmd.stop⟩, argv,
                 .PipeFromFile ⟨fh.start, fh.stop⟩, .Inherit⟩,
                 ⟨cmd.start, tok.stop⟩⟩, p5)
      | .RedirOut =>
        match expectToken [.Path] p4 with
        | none => none
        | some (fh, p5) =>
          some (⟨⟨⟨cmd.start, cmd.stop⟩, argv,
                 .Inherit, .PipeToFile ⟨fh.start, fh.stop⟩⟩,
                 ⟨cmd.start, tok.stop⟩⟩, p5)
      | .EOF =>
        -- `token.end = cmd.end` span correction for EOF/And terminators
        some (⟨⟨⟨cmd.start, cmd.stop⟩, argv, .Inherit, .Inherit⟩,
               ⟨cmd.start, cmd.stop⟩⟩, p4)
      | .And =>
        some (⟨⟨⟨cmd.start, cmd.stop⟩, argv, .Inherit, .Inherit⟩,
               ⟨cmd.start, cmd.stop⟩⟩, p4)
      | _ => none

/-- The `while let Some(cmd) = self.process_command()` loop of `build_ast`.
Every successful `process_command` advances `index`, so `tokens.length + 1`
fuel always suffices. -/
def buildAstLoop : Nat → InputParser → List (Spanned Program) → Module
  | 0, _, acc => ⟨acc⟩
  | fuel + 1, p, acc =>
    match processCommand p with
    | none => ⟨acc⟩
    | some (s, p') => buildAstLoop fuel p' (acc ++ [s])

/-- Method `InputParser::build_ast`: accumulate statements until `process_command`
returns `None` — whether because input is exhausted or because of a parse
error — and return the module built so far. -/
def buildAst (p : InputParser) : Module := buildAstLoop (p.tokens.length + 1) p []

/-- The lex-filter-parse sequence of `main`: collect tokens, drop
`Whitespace`, parse.  (`main` does this regardless of whether the lexer
ended cleanly or with a diagnostic.) -/
def moduleOfLine (line : List Char) : Module :=
  buildAst ⟨((lexLine line).1.filter (fun t => !(t.typ = .Whitespace))), 0⟩

/-! ## Engine (`engine.rs`).

The OS collaborators (filesystem existence checks, `File::open`,
`File::create`, `Command::spawn`, `Child::wait`, `env::set_current_dir`,
`read_dir`, the inherited stdin, and the `HOME` base directory) are modelled
by an `Env` record of predicates saying which of these fallible calls
succeed.  Observable side effects are gathered as an ordered `Event` trace. -/

/-- Results of the fallible OS collaborator calls. -/
structure Env where
  /-- Result of `full_path.exists() && full_path.is_file()` inside `find_executable`. -/
  isFile : String → Bool
  /-- Whether `File::open(path)` succeeds. -/
  openOk : String → Bool
  /-- Whether `File::create(path)` succeeds. -/
  createOk : String → Bool
  /-- Whether `Command::spawn()` succeeds for the given executable path. -/
  spawnOk : String → Bool
  /-- Whether `Child::wait()` succeeds for the given executable path. -/
  waitOk : String → Bool
  /-- Whether `env::set_current_dir(path)` succeeds. -/
  enterable : String → Bool
  /-- Whether `read_dir` succeeds on the given directory. -/
  readDirOk : String → Bool
  /-- the entries `read_dir` yields. -/
  listDir : String → List String
  /-- bytes the `echo` builtin reads from the inherited stdin. -/
  stdinContent : String
  /-- Value of `env::var_os("HOME")` (`Engine::get_base_dir`). -/
  baseDir : String

/-- The engine fields the claims touch: the tracked current directory, the
`PATH` entries loaded at construction, and the retained source of the line
being executed (`self.source`, set at the top of `execute`). -/
structure Engine where
  cur_dir : String
  path : List String
  source : List Char
  deriving DecidableEq, Repr

/-- OS-level state outside the engine: the process-wide current working
directory mutated by `env::set_current_dir`. -/
structure World where
  cwd : String
  deriving DecidableEq, Repr

/-- Type `std::io::Error` as the engine distinguishes it: `find_executable`
builds a `NotFound` error carrying the command name; every other fallible
call is tagged with the operation that failed. -/
inductive IoError where
  | notFound (cmd : String)
  | opFailed (what : String)
  deriving DecidableEq, Repr

/-- Observable side effects, in order of occurrence. -/
inductive Event where
  | spawned (exe : String) (args : List String)
  | reported (sp : Span)
  | waitedOn (exe : String)
  | printed (s : String)
  deriving DecidableEq, Repr

/-- How one chain's execution ended: `Ok(())`, `Err(e)` (which `execute`
unwraps), `process::exit` from the `exit` builtin, or a panic raised inside a
builtin. -/
inductive StepResult where
  | ok
  | err (e : IoError)
  | exited (code : Nat)
  | panicked (msg : String)
  deriving DecidableEq, Repr

/-- State and trace produced by executing one chain. -/
structure StepOut where
  engine : Engine
  world : World
  events : List Event
  result : StepResult
  deriving DecidableEq, Repr

/-- Slice `&source[sp]` resolved to a string. -/
def sliceStr (source : List Char) (sp : Span) : String :=
  String.mk (sliceChars source sp.start sp.stop)

/-- The keys of `builtin_registry()`. -/
def builtinNames : List String := ["cd", "ls", "echo", "clear", "exit"]

/-- Test `self.builtins.contains_key(name)`. -/
def isBuiltin (name : String) : Bool := builtinNames.contains name

/-- Method `Engine::find_executable` (Linux: extension list `[""]`, so
`set_extension` is never called): scan the `PATH` entries in order for
`dir.join(cmd)` existing as a file, else a `NotFound` error naming the
command. -/
def findExecutable (env : Env) (path : List String) (cmd : String) : Except IoError String :=
  match path.find? (fun dir => env.isFile (dir ++ "/" ++ cmd)) with
  | some dir => .ok (dir ++ "/" ++ cmd)
  | none => .error (.notFound cmd)

/-- builtin `cd`: with an argument, `env::set_current_dir(path)?` then record
`path` in `cur_dir`; with no argument, the same against the base directory.
The `?` propagates the error before `cur_dir` is touched. -/
def cd (env : Env) (e : Engine) (w : World) (stmt : Spanned Program) : StepOut :=
  match stmt.value.argv.get? 0 with
  | some sp =>
    let path := sliceStr e.source sp
    if env.enterable path then ⟨{ e with cur_dir := path }, ⟨path⟩, [], .ok⟩
    else ⟨e, w, [], .err (.opFailed "set_current_dir")⟩
  | none =>
    let path := env.baseDir
    if env.enterable path then ⟨{ e with cur_dir := path }, ⟨path⟩, [], .ok⟩
    else ⟨e, w, [], .err (.opFailed "set_current_dir")⟩

/-- builtin `ls`: `read_dir(cur_dir).unwrap()` (a panic on failure), print
each entry and a blank line. -/
def ls (env : Env) (e : Engine) (w : World) (_stmt : Spanned Program) : StepOut :=
  if env.readDirOk e.cur_dir then
    ⟨e, w, (env.listDir e.cur_dir).map .printed ++ [.printed ""], .ok⟩
  else ⟨e, w, [], .panicked "called `Result::unwrap()` on an `Err` value"⟩

/-- builtin `echo`: with an argument, print the raw source slice of
`argv[0]`; with none, read the inherited stdin to end and print it.  Either
way a final empty `println!()` follows. -/
def echo (env : Env) (e : Engine) (w : World) (stmt : Spanned Program) : StepOut :=
  match stmt.value.argv.get? 0 with
  | some sp => ⟨e, w, [.printed (sliceStr e.source sp), .printed ""], .ok⟩
  | none => ⟨e, w, [.printed env.stdinContent, .printed ""], .ok⟩

/-- builtin `clear`: print the ANSI clear sequence. -/
def clear (_env : Env) (e : Engine) (w : World) (_stmt : Spanned Program) : StepOut :=
  ⟨e, w, [.printed "\x1b[2J\x1b[1;1H"], .ok⟩

/-- builtin `exit`: `std::process::exit(0)` — unconditional process
termination, never returns. -/
def exitBuiltin (_env : Env) (e : Engine) (w : World) (_stmt : Spanned Program) : StepOut :=
  ⟨e, w, [], .exited 0⟩

/-- Dispatch through `builtin_registry()` by name. -/
def runBuiltin (env : Env) (name : String) (e : Engine) (w : World)
    (stmt : Spanned Program) : StepOut :=
  if name = "cd" then cd env e w stmt
  else if name = "ls" then ls env e w stmt
  else if name = "echo" then echo env e w stmt
  else if name = "clear" then clear env e w stmt
  else exitBuiltin env e w stmt

/-- Method `Engine::execute_single`: run a builtin in-process, or resolve the
executable, bind stdin (`PipeFromFile` opens the file, else inherit), bind
stdout (`PipeToFile` creates the file, else inherit), spawn, and wait.  Any
`?` failure returns the error with the side effects made so far. -/
def executeSingle (env : Env) (e : Engine) (w : World) (source : List Char)
    (stmt : Spanned Program) : StepOut :=
  let name := sliceStr source stmt.value.program
  if isBuiltin name then runBuiltin env name e w stmt
  else
    match findExecutable env e.path name with
    | .error er => ⟨e, w, [], .err er⟩
    | .ok exe =>
      let args := stmt.value.argv.map (fun sp => sliceStr source sp)
      let stdinOk : Bool :=
        match stmt.value.stdin with
        | .PipeFromFile sp => env.openOk (sliceStr source sp)
        | _ => true
      if !stdinOk then ⟨e, w, [], .err (.opFailed "open")⟩
      else
        let stdoutOk : Bool :=
          match stmt.value.stdout with
          | .PipeToFile sp => env.createOk (sliceStr source sp)
          | _ => true
        if !stdoutOk then ⟨e, w, [], .err (.opFailed "create")⟩
        else if !(env.spawnOk exe) then ⟨e, w, [], .err (.opFailed "spawn")⟩
        else if env.waitOk exe then ⟨e, w, [.spawned exe args, .waitedOn exe], .ok⟩
        else ⟨e, w, [.spawned exe args], .err (.opFailed "wait")⟩

/-- The wait loop at the end of `execute_pipeline` (`for mut child in
children { child.wait()?; }`), over the spawned executables in spawn order. -/
def waitAll (env : Env) : List String → List Event × StepResult
  | [] => ([], .ok)
  | exe :: rest =>
    if env.waitOk exe then
      let r := waitAll env rest
      (.waitedOn exe :: r.1, r.2)
    else ([], .err (.opFailed "wait"))

/-- The statement loop of `Engine::execute_pipeline`.  `prevStdout` models
`prev_stdout.take()`: whether the previous statement's captured pipe
read-end is pending; `spawnedRev` is the `children` vector (newest first).
A builtin member makes the whole call print a diagnostic against that
statement's span and return `Ok(())` — skipping the wait loop, so
already-spawned children are left running. -/
def executePipelineLoop (env : Env) (e : Engine) (source : List Char) :
    List (Spanned Program) → Bool → List String → List Event × StepResult
  | [], _, spawnedRev => waitAll env spawnedRev.reverse
  | stmt :: rest, prevStdout, spawnedRev =>
    let name := sliceStr source stmt.value.program
    if isBuiltin name then ([.reported stmt.span], .ok)
    else
      match findExecutable env e.path name with
      | .error er => ([], .err er)
      | .ok exe =>
        let args := stmt.value.argv.map (fun sp => sliceStr source sp)
        let stdinOk : Bool :=
          if prevStdout then true
          else
            match stmt.value.stdin with
            | .PipeFromFile sp => env.openOk (sliceStr source sp)
            | _ => true
        if !stdinOk then ([], .err (.opFailed "open"))
        else
          let stdoutOk : Bool :=
            match stmt.value.stdout with
            | .PipeToFile sp => env.createOk (sliceStr source sp)
            | _ => true
          if !stdoutOk then ([], .err (.opFailed "create"))
          else if !(env.spawnOk exe) then ([], .err (.opFailed "spawn"))
          else
            let prev' : Bool := stmt.value.stdout = .PipeToStdin
            let r := executePipelineLoop env e source rest prev' (exe :: spawnedRev)
            (.spawned exe args :: r.1, r.2)

/-- Method `Engine::execute_pipeline`: walk the chain spawning eagerly, then wait
for every child in spawn order.  The engine fields and the OS current
directory are never touched (no builtin runs here). -/
def executePipeline (env : Env) (e : Engine) (w : World) (source : List Char)
    (chain : List (Spanned Program)) : StepOut :=
  let r := executePipelineLoop env e source chain false []
  ⟨e, w, r.1, r.2⟩

/-- The chain-collection inner loop of `execute`: starting from `s`, keep
pulling statements while the last one collected has `stdout ==
StreamStrategy::PipeToStdin` and more remain.  Returns the chain and the
remaining statements. -/
def splitChain (s : Spanned Program) :
    List (Spanned Program) → List (Spanned Program) × List (Spanned Program)
  | [] => ([s], [])
  | r :: rs =>
    if s.value.stdout = .PipeToStdin then
      let t := splitChain r rs
      (s :: t.1, t.2)
    else ([s], r :: rs)

/-- Partition a statement list into the maximal pipeline chains `execute`
processes in order.  `splitChain` always consumes at least the head, so
`length + 1` fuel suffices. -/
def partitionChains : Nat → List (Spanned Program) → List (List (Spanned Program))
  | 0, _ => []
  | _, [] => []
  | fuel + 1, s :: rest =>
    let t := splitChain s rest
    t.1 :: partitionChains fuel t.2

/-- The panic message of `Result::unwrap` on the given error (`execute`
calls `.unwrap()` on both `execute_single` and `execute_pipeline`). -/
def ioErrMsg : IoError → String
  | .notFound cmd => "Unrecognized command '" ++ cmd ++ "'"
  | .opFailed what => what ++ " failed"

/-- Final fate of the shell process for one input line. -/
inductive ExecOutcome where
  | normal
  | panicked (msg : String)
  | exited (code : Nat)
  deriving DecidableEq, Repr

/-- State and trace after `execute` returns (or after the process dies). -/
structure ExecOut where
  engine : Engine
  world : World
  events : List Event
  outcome : ExecOutcome
  deriving DecidableEq, Repr

/-- The chain loop of `Engine::execute`: single-statement chains go to
`execute_single`, longer ones to `execute_pipeline`, each result
`.unwrap()`ed — an `Err` therefore panics and kills the whole shell
process. -/
def runChains (env : Env) : Engine → World → List Char →
    List (List (Spanned Program)) → ExecOut
  | e, w, _, [] => ⟨e, w, [], .normal⟩
  | e, w, source, chain :: rest =>
    let step : StepOut :=
      match chain with
      | [stmt] => executeSingle env e w source stmt
      | _ => executePipeline env e w source chain
    match step.result with
    | .ok =>
      let r := runChains env step.engine step.world source rest
      ⟨r.engine, r.world, step.events ++ r.events, r.outcome⟩
    | .err er => ⟨step.engine, step.world, step.events, .panicked (ioErrMsg er)⟩
    | .exited c => ⟨step.engine, step.world, step.events, .exited c⟩
    | .panicked m => ⟨step.engine, step.world, step.events, .panicked m⟩

/-- Method `Engine::execute`: retain the line's source, then run its chains. -/
def execute (env : Env) (e : Engine) (w : World) (source : List Char)
    (m : Module) : ExecOut :=
  runChains env { e with source := source } w source
    (partitionChains (m.stmts.length + 1) m.stmts)

/-- One iteration of the REPL loop in `main`: lex (a lexer panic kills the
process before parsing), filter whitespace, parse, execute. -/
def processLine (env : Env) (e : Engine) (w : World) (line : List Char) : ExecOut :=
  match lexLine line with
  | (_, .panicked m) => ⟨e, w, [], .panicked m⟩
  | (_, .outOfFuel) => ⟨e, w, [], .panicked "lexer diverged"⟩
  | (toks, _) =>
    let filtered := toks.filter (fun t => !(t.typ = .Whitespace))
    execute env e w line (buildAst ⟨filtered, 0⟩)

/-- Concrete collaborator environment used by the closed theorems: only
`/bin/cat` exists as an executable, no file opens or creates succeed, spawn
and wait succeed, only `/home/user` is enterable. -/
def env0 : Env where
  isFile := fun p => p == "/bin/cat"
  openOk := fun _ => false
  createOk := fun _ => false
  spawnOk := fun _ => true
  waitOk := fun _ => true
  enterable := fun d => d == "/home/user"
  readDirOk := fun _ => true
  listDir := fun _ => []
  stdinContent := "piped-stdin"
  baseDir := "/home/user"

/-- Engine as constructed by `Engine::new` under `env0`. -/
def engine0 : Engine := ⟨"/home/user", ["/bin"], []⟩

/-- Initial OS state for the closed theorems. -/
def world0 : World := ⟨"/home/user"⟩

-- sanity checks of the embedding on concrete inputs
example : lexLine "ab".toList = ([⟨.Identifier, 0, 2⟩], .ok) := by decide
example : lexLine "a b".toList =
    ([⟨.Identifier, 0, 1⟩, ⟨.Whitespace, 0, 0⟩, ⟨.Identifier, 2, 3⟩], .ok) := by decide
example : lexLine "./x".toList = ([⟨.Path, 0, 1⟩, ⟨.Path, 1, 3⟩], .ok) := by decide
example : lexLine "a.txt".toList = ([⟨.Path, 0, 5⟩], .ok) := by decide
example : lexLine "\"ab\"".toList = ([⟨.String, 0, 4⟩], .ok) := by decide
example : lexLine "\"ab".toList = ([], .errored ⟨0, 2⟩) := by decide
example : lexLine ":".toList =
    ([], .panicked "No matching token implementation found for this input") := by decide
example : lexLine "12|b".toList =
    ([⟨.Number, 0, 2⟩, ⟨.Pipe, 2, 3⟩, ⟨.Identifier, 3, 4⟩], .ok) := by decide

-- sanity checks of the parser embedding
example : moduleOfLine "cd | ls".toList =
    ⟨[⟨⟨⟨0, 2⟩, [], .Inherit, .PipeToStdin⟩, ⟨0, 4⟩⟩,
      ⟨⟨⟨5, 7⟩, [], .Inherit, .Inherit⟩, ⟨5, 7⟩⟩]⟩ := by decide
example : moduleOfLine "cat | cd".toList =
    ⟨[⟨⟨⟨0, 3⟩, [], .Inherit, .PipeToStdin⟩, ⟨0, 5⟩⟩,
      ⟨⟨⟨6, 8⟩, [], .Inherit, .Inherit⟩, ⟨6, 8⟩⟩]⟩ := by decide
example : moduleOfLine "cat < a.txt".toList =
    ⟨[⟨⟨⟨0, 3⟩, [], .PipeFromFile ⟨6, 11⟩, .Inherit⟩, ⟨0, 5⟩⟩]⟩ := by decide
example : moduleOfLine "echo \"abc".toList =
    ⟨[⟨⟨⟨0, 4⟩, [], .Inherit, .Inherit⟩, ⟨0, 4⟩⟩]⟩ := by decide
example : moduleOfLine "a | b | c".toList =
    ⟨[⟨⟨⟨0, 1⟩, [], .Inherit, .PipeToStdin⟩, ⟨0, 3⟩⟩,
      ⟨⟨⟨4, 5⟩, [], .Inherit, .PipeToStdin⟩, ⟨4, 7⟩⟩,
      ⟨⟨⟨8, 9⟩, [], .Inherit, .Inherit⟩, ⟨8, 9⟩⟩]⟩ := by decide

-- sanity checks of the engine embedding
example : (processLine env0 engine0 world0 "cd | ls".toList).events =
    [.reported ⟨0, 4⟩] := by decide
example : (processLine env0 engine0 world0 "cat | cd".toList).events =
    [.spawned "/bin/cat" [], .reported ⟨6, 8⟩] := by decide
example : (processLine env0 engine0 world0 "nosuchcmd".toList).outcome =
    .panicked "Unrecognized command 'nosuchcmd'" := by decide
example : (processLine env0 engine0 world0 "echo hi".toList).events =
    [.printed "hi", .printed ""] := by decide

/-! ## Supporting lemmas about the lexer -/

/-- Past the end of the buffer the derived `cur_char` is one of the two
defaults: byte `0` (empty buffer at construction) or byte `0x03`. -/
theorem curChar_of_ge {l : InputLexer} (h : l.source.length ≤ l.index) :
    curChar l = nulChar ∨ curChar l = etxChar := by
  unfold curChar
  by_cases h0 : l.index = 0
  · left
    rw [if_pos h0]
    exact List.getD_eq_default _ _ (by omega)
  · right
    rw [if_neg h0]
    exact List.getD_eq_default _ _ h

/-- When end of buffer is reached by advancing (`index > 0`), `cur_char` is
the `0x03` sentinel. -/
theorem curChar_etx {l : InputLexer} (h : l.source.length ≤ l.index)
    (h0 : 0 < l.index) : curChar l = etxChar := by
  unfold curChar
  rw [if_neg (by omega)]
  exact List.getD_eq_default _ _ h

/-- In range, `cur_char` is the buffer character at `index`, whatever the
out-of-range default. -/
theorem curChar_eq_getD {l : InputLexer} (h : l.index < l.source.length) (d : Char) :
    curChar l = l.source.getD l.index d := by
  unfold curChar
  by_cases h0 : l.index = 0
  · rw [if_pos h0, h0, List.getD_eq_getElem _ _ (by omega), List.getD_eq_getElem _ _ (by omega)]
  · rw [if_neg h0, List.getD_eq_getElem _ _ h, List.getD_eq_getElem _ _ h]

/-- A `cur_char` satisfying a predicate that rejects both defaults must lie
inside the buffer. -/
theorem index_lt_of_curChar {l : InputLexer} {p : Char → Bool}
    (hnul : p nulChar = false) (hetx : p etxChar = false)
    (h : p (curChar l) = true) : l.index < l.source.length := by
  by_contra hge
  rcases curChar_of_ge (Nat.le_of_not_lt hge) with hc | hc <;> rw [hc] at h
  · exact absurd h (by rw [hnul]; exact Bool.false_ne_true)
  · exact absurd h (by rw [hetx]; exact Bool.false_ne_true)

/-- If the string loop ends with `closed = false`, the scan position is at or
past the end of the buffer (given enough fuel), and the buffer is unchanged. -/
theorem stringLoop_unclosed (fuel : Nat) (q : Char) (l : InputLexer)
    (hf : l.source.length + 1 ≤ fuel + l.index)
    (h : (stringLoop fuel q l).2 = false) :
    l.source.length ≤ (stringLoop fuel q l).1.index ∧
      (stringLoop fuel q l).1.source = l.source := by
  induction fuel generalizing l with
  | zero =>
    refine ⟨?_, rfl⟩
    show l.source.length ≤ l.index
    omega
  | succ fuel ih =>
    by_cases hlt : l.index < l.source.length
    · by_cases hesc : curChar l = '\\'
      · have heq : stringLoop (fuel + 1) q l = stringLoop fuel q (nextChar (nextChar l)) := by
          simp [stringLoop, hlt, hesc]
        rw [heq] at h ⊢
        exact ih (nextChar (nextChar l)) (by simp [nextChar]; omega) h
      · by_cases hq : curChar l = q
        · have hqne : ¬(q = '\\') := fun e => hesc (hq.trans e)
          have heq : stringLoop (fuel + 1) q l = (nextChar l, true) := by
            simp [stringLoop, hlt, hq, hqne]
          rw [heq] at h
          exact absurd h (by simp)
        · have heq : stringLoop (fuel + 1) q l = stringLoop fuel q (nextChar l) := by
            simp [stringLoop, hlt, hesc, hq]
          rw [heq] at h ⊢
          exact ih (nextChar l) (by simp [nextChar]; omega) h
    · have heq : stringLoop (fuel + 1) q l = (l, false) := by
        simp [stringLoop, hlt]
      rw [heq]
      exact ⟨Nat.le_of_not_lt hlt, rfl⟩

/-- If the string loop ends with `closed = true`, the final position is one
past an in-range occurrence of the quote character. -/
theorem stringLoop_closed (fuel : Nat) (q : Char) (l : InputLexer)
    (h : (stringLoop fuel q l).2 = true) :
    ∃ j, l.index ≤ j ∧ j < l.source.length ∧
      (stringLoop fuel q l).1 = ⟨l.source, j + 1⟩ ∧ l.source.getD j ' ' = q := by
  induction fuel generalizing l with
  | zero => exact absurd h (by simp [stringLoop])
  | succ fuel ih =>
    by_cases hlt : l.index < l.source.length
    · by_cases hesc : curChar l = '\\'
      · have heq : stringLoop (fuel + 1) q l = stringLoop fuel q (nextChar (nextChar l)) := by
          simp [stringLoop, hlt, hesc]
        rw [heq] at h ⊢
        obtain ⟨j, hj1, hj2, hj3, hj4⟩ := ih (nextChar (nextChar l)) h
        exact ⟨j, by simp [nextChar] at hj1 ⊢; omega, hj2, hj3, hj4⟩
      · by_cases hq : curChar l = q
        · have hqne : ¬(q = '\\') := fun e => hesc (hq.trans e)
          have heq : stringLoop (fuel + 1) q l = (nextChar l, true) := by
            simp [stringLoop, hlt, hq, hqne]
          rw [heq]
          refine ⟨l.index, le_refl _, hlt, rfl, ?_⟩
          rw [← curChar_eq_getD hlt ' ']
          exact hq
        · have heq : stringLoop (fuel + 1) q l = stringLoop fuel q (nextChar l) := by
            simp [stringLoop, hlt, hesc, hq]
          rw [heq] at h ⊢
          obtain ⟨j, hj1, hj2, hj3, hj4⟩ := ih (nextChar l) h
          exact ⟨j, by simp [nextChar] at hj1 ⊢; omega, hj2, hj3, hj4⟩
    · exact absurd h (by simp [stringLoop, hlt])

/-- A token produced by the identifier arm is a `Path` or `Identifier` token
whose span runs from the position at entry to the position at exit. -/
theorem identArm_tok {l : InputLexer} {t : Token} {l' : InputLexer}
    (h : identArm l = .tok t l') :
    (t.typ = .Path ∨ t.typ = .Identifier) ∧ t.start = l.index ∧ t.stop = l'.index := by
  simp only [identArm] at h
  split at h <;> (injection h with h1 h2; subst h2; subst h1)
  · exact ⟨Or.inl rfl, rfl, rfl⟩
  · exact ⟨Or.inr rfl, rfl, rfl⟩

/-- A token produced by the number arm is a `Number` token spanning exactly
the consumed characters. -/
theorem numberArm_tok {l : InputLexer} {t : Token} {l' : InputLexer}
    (h : numberArm l = .tok t l') :
    t.typ = .Number ∧ t.start = l.index ∧ t.stop = l'.index := by
  simp only [numberArm] at h
  injection h with h1 h2
  subst h2; subst h1
  exact ⟨rfl, rfl, rfl⟩

/-- A token produced by the path arm is a `Path` token spanning exactly the
consumed characters. -/
theorem pathArm_tok {l : InputLexer} {t : Token} {l' : InputLexer}
    (h : pathArm l = .tok t l') :
    t.typ = .Path ∧ t.start = l.index ∧ t.stop = l'.index := by
  simp only [pathArm] at h
  repeat' split at h
  all_goals
    first
      | (injection h with h1 h2; subst h2; subst h1; exact ⟨rfl, rfl, rfl⟩)
      | simp at h

/-- A token produced by the string arm is a `String` token spanning from the
opening quote to just past the closing quote, and the string loop closed. -/
theorem stringArm_tok {l : InputLexer} {t : Token} {l' : InputLexer}
    (h : stringArm l = .tok t l') :
    stringLoop (l.source.length + 2) (curChar l) (nextChar l) = (l', true) ∧
      t = ⟨.String, l.index, l'.index⟩ := by
  simp only [stringArm] at h
  split at h
  case isTrue hc =>
    injection h with h1 h2
    subst h2; subst h1
    refine ⟨?_, rfl⟩
    rw [← hc]
  case isFalse hc => simp at h

/-- A token produced by an operator arm carries the requested type and the
one-character span just consumed. -/
theorem opArm_tok {typ : TokenType} {l : InputLexer} {t : Token} {l' : InputLexer}
    (h : opArm typ l = .tok t l') :
    t = ⟨typ, l.index, l.index + 1⟩ ∧ l' = nextChar l := by
  simp only [opArm] at h
  injection h with h1 h2
  subst h2; subst h1
  exact ⟨by simp [nextChar], rfl⟩

set_option maxHeartbeats 2000000 in
/-- Core facts about any token `next_token` produces: every token other than
`Whitespace` and `EOF` spans exactly the characters consumed for it;
`Whitespace` tokens always carry the empty span `0..0`; `String` tokens come
from a closed string loop opened at a quote character. -/
theorem nextToken_tok_info {l : InputLexer} {t : Token} {l' : InputLexer}
    (h : nextToken l = .tok t l') :
    (t.typ ≠ .Whitespace → t.typ ≠ .EOF → t.start = l.index ∧ t.stop = l'.index) ∧
    (t.typ = .Whitespace → t.start = 0 ∧ t.stop = 0 ∧ l' = nextChar l) ∧
    (t.typ = .String →
      (curChar l = '"' ∨ curChar l = '\'') ∧
      stringLoop (l.source.length + 2) (curChar l) (nextChar l) = (l', true) ∧
      t.start = l.index ∧ t.stop = l'.index) := by
  simp only [nextToken] at h
  split_ifs at h with h1 h2 h3 h4 h5 h6 h7 h8 h9 h10 h11
  · obtain ⟨hOr, hs, he⟩ := identArm_tok h
    refine ⟨fun _ _ => ⟨hs, he⟩, fun hw => ?_, fun hstr => ?_⟩
    · rcases hOr with h' | h' <;> exact absurd (h'.symm.trans hw) (by decide)
    · rcases hOr with h' | h' <;> exact absurd (h'.symm.trans hstr) (by decide)
  · obtain ⟨htyp, hs, he⟩ := numberArm_tok h
    exact ⟨fun _ _ => ⟨hs, he⟩,
      fun hw => absurd (htyp.symm.trans hw) (by decide),
      fun hstr => absurd (htyp.symm.trans hstr) (by decide)⟩
  · obtain ⟨htyp, hs, he⟩ := pathArm_tok h
    exact ⟨fun _ _ => ⟨hs, he⟩,
      fun hw => absurd (htyp.symm.trans hw) (by decide),
      fun hstr => absurd (htyp.symm.trans hstr) (by decide)⟩
  · obtain ⟨hloop, ht⟩ := stringArm_tok h
    subst ht
    exact ⟨fun _ _ => ⟨rfl, rfl⟩, fun hw => TokenType.noConfusion hw,
      fun _ => ⟨by simpa using h4, hloop, rfl, rfl⟩⟩
  · obtain ⟨ht, hl⟩ := opArm_tok h
    subst ht; subst hl
    exact ⟨fun _ _ => ⟨rfl, rfl⟩, fun hw => TokenType.noConfusion hw,
      fun hstr => TokenType.noConfusion hstr⟩
  · obtain ⟨ht, hl⟩ := opArm_tok h
    subst ht; subst hl
    exact ⟨fun _ _ => ⟨rfl, rfl⟩, fun hw => TokenType.noConfusion hw,
      fun hstr => TokenType.noConfusion hstr⟩
  · obtain ⟨ht, hl⟩ := opArm_tok h
    subst ht; subst hl
    exact ⟨fun _ _ => ⟨rfl, rfl⟩, fun hw => TokenType.noConfusion hw,
      fun hstr => TokenType.noConfusion hstr⟩
  · obtain ⟨ht, hl⟩ := opArm_tok h
    subst ht; subst hl
    exact ⟨fun _ _ => ⟨rfl, rfl⟩, fun hw => TokenType.noConfusion hw,
      fun hstr => TokenType.noConfusion hstr⟩
  · injection h with h1 h2
    subst h1; subst h2
    exact ⟨fun hne _ => absurd rfl hne, fun _ => ⟨rfl, rfl, rfl⟩,
      fun hstr => absurd hstr (by decide)⟩
  · injection h with h1 h2
    subst h1; subst h2
    exact ⟨fun _ hne => absurd rfl hne, fun hw => absurd hw (by decide),
      fun hstr => absurd hstr (by decide)⟩

/-! ## Claim theorems -/

/-- Claim C1 (evaluation of the code at its failing inputs): operational
errors do NOT leave the shell running.  When the command of a line resolves
to no executable (`nosuchcmd` under `env0`), `Engine::execute` unwraps the
`Err` from `execute_single` and the whole shell process panics; likewise when
a `<` redirect file cannot be opened (`cat < a.txt` with `a.txt` unopenable),
the line dies with a panic, with no per-line recovery. -/
theorem c1_operational_error_panics_shell :
    (processLine env0 engine0 world0 "nosuchcmd".toList).outcome =
      .panicked "Unrecognized command 'nosuchcmd'" ∧
    (processLine env0 engine0 world0 "cat < a.txt".toList).outcome =
      .panicked "open failed" ∧
    (processLine env0 engine0 world0 "cat < a.txt".toList).events = [] := by decide

/-- Claim C3 counterexample: for the line `echo "abc` (unterminated string,
a lexical error), `build_ast` still produces a Module with one statement and
the engine executes it (the `echo` builtin runs and prints), contradicting
"the module is discarded, no Module is produced for that line, and no
statement from that line is executed". -/
theorem c3_counterexample_module_not_discarded :
    ¬((moduleOfLine "echo \"abc".toList).stmts = []) ∧
    ¬((processLine env0 engine0 world0 "echo \"abc".toList).events = []) := by decide

/-- Claim C3 (amended): at the first lexical or parse error, lexing and
parsing stop, but every statement parsed before the error is kept in the
Module and executed.  For `echo "abc`: the lexer yields the `echo` token and
then aborts with the unterminated-string diagnostic (span `5..8`), the parser
turns the surviving tokens into a one-statement Module, and the engine runs
that statement as the `echo` builtin (argv empty, so it echoes stdin). -/
theorem c3_amended_prefix_statements_kept_and_run :
    lexLine "echo \"abc".toList =
      ([⟨.Identifier, 0, 4⟩, ⟨.Whitespace, 0, 0⟩], .errored ⟨5, 8⟩) ∧
    moduleOfLine "echo \"abc".toList =
      ⟨[⟨⟨⟨0, 4⟩, [], .Inherit, .Inherit⟩, ⟨0, 4⟩⟩]⟩ ∧
    processLine env0 engine0 world0 "echo \"abc".toList =
      ⟨⟨"/home/user", ["/bin"], "echo \"abc".toList⟩, world0,
       [.printed "piped-stdin", .printed ""], .normal⟩ := by decide

/-- Claim C4 counterexample: the non-empty input `a` lexes without error,
yet the token stream contains no EOF token at all — the lexer's final call
returns nothing directly (the `0x03` sentinel), never emitting EOF first. -/
theorem c4_counterexample_no_eof_token :
    lexLine "a".toList = ([⟨.Identifier, 0, 1⟩], .ok) ∧
    ((lexLine "a".toList).1.all (fun t => !(t.typ = .EOF))) = true := by decide

/-- Claim C4 (amended): at clean end-of-buffer reached by consuming input
(`index > 0`), `next_token` returns nothing immediately — the `0x03` internal
sentinel, never surfaced as a token — without first emitting an EOF token.
The EOF-token arm fires only when the current character is a literal NUL
byte, which for a nonempty NUL-free buffer never happens; it does fire (and
does not advance) on an empty buffer at construction. -/
theorem c4_amended_end_of_buffer_yields_nothing :
    (∀ l : InputLexer, l.source.length ≤ l.index → 0 < l.index →
      nextToken l = .stop l) ∧
    nextToken (InputLexer.new []) = .tok ⟨.EOF, 0, 0⟩ (InputLexer.new []) := by
  constructor
  · intro l h h0
    have hc : curChar l = etxChar := curChar_etx h h0
    simp only [nextToken, hc]
    rfl
  · rfl

/-- Witness for C4 (amended), at the state after lexing the single
character of input `a`. -/
theorem c4_amended_witness :
    nextToken ⟨"a".toList, 1⟩ = .stop ⟨"a".toList, 1⟩ :=
  c4_amended_end_of_buffer_yields_nothing.1 ⟨"a".toList, 1⟩ (by decide) (by decide)

/-- When the current character is a quote, `next_token` dispatches to the
string arm. -/
theorem nextToken_of_quote {l : InputLexer}
    (hc : curChar l = '"' ∨ curChar l = '\'') : nextToken l = stringArm l := by
  rcases hc with hc | hc <;> (simp only [nextToken, hc]; rfl)

/-- Claim C2 counterexample: for `cat | cd` (an external command piped into a
builtin) under `env0`, the engine spawns the `cat` process *before* noticing
the builtin `cd` member, so the chain is not rejected "before spawning
anything" and the number of spawned processes is 1, not 0. -/
theorem c2_counterexample_spawn_before_reject :
    (processLine env0 engine0 world0 "cat | cd".toList).events =
      [.spawned "/bin/cat" [], .reported ⟨6, 8⟩] ∧
    ¬(((processLine env0 engine0 world0 "cat | cd".toList).events.filter
        (fun ev => match ev with | .spawned _ _ => true | _ => false)).length = 0) := by
  decide

/-- Claim C2 (amended): the pipeline walk rejects the chain at the first
member that resolves to a builtin, reporting against that statement's span;
members spawned earlier in the walk are left running (the counterexample
shows one such spawn).  When the *first* member is a builtin — as in
`cd | ls` — zero processes are spawned, nothing is waited on, and engine and
OS state are untouched. -/
theorem c2_amended_first_member_builtin_rejects_without_spawn
    (env : Env) (e : Engine) (w : World) (src : List Char)
    (stmt : Spanned Program) (rest : List (Spanned Program))
    (h : isBuiltin (sliceStr src stmt.value.program) = true) :
    executePipeline env e w src (stmt :: rest) = ⟨e, w, [.reported stmt.span], .ok⟩ := by
  simp [executePipeline, executePipelineLoop, h]

/-- Witness for C2 (amended): the parsed chain of `cd | ls` has the builtin
`cd` first, and executing it as a pipeline spawns nothing, changes nothing,
and only reports against the first statement's span `0..4`. -/
theorem c2_amended_witness :
    moduleOfLine "cd | ls".toList =
      ⟨[⟨⟨⟨0, 2⟩, [], .Inherit, .PipeToStdin⟩, ⟨0, 4⟩⟩,
        ⟨⟨⟨5, 7⟩, [], .Inherit, .Inherit⟩, ⟨5, 7⟩⟩]⟩ ∧
    executePipeline env0 engine0 world0 "cd | ls".toList
      [⟨⟨⟨0, 2⟩, [], .Inherit, .PipeToStdin⟩, ⟨0, 4⟩⟩,
       ⟨⟨⟨5, 7⟩, [], .Inherit, .Inherit⟩, ⟨5, 7⟩⟩] =
      ⟨engine0, world0, [.reported ⟨0, 4⟩], .ok⟩ :=
  ⟨by decide,
   c2_amended_first_member_builtin_rejects_without_spawn env0 engine0 world0
     "cd | ls".toList ⟨⟨⟨0, 2⟩, [], .Inherit, .PipeToStdin⟩, ⟨0, 4⟩⟩
     [⟨⟨⟨5, 7⟩, [], .Inherit, .Inherit⟩, ⟨5, 7⟩⟩] (by decide)⟩

/-- Claim C6 counterexample: lexing the single space ` ` produces a
`Whitespace` token whose span is `0..0`, so slicing `[start, end)` yields the
empty string rather than the consumed whitespace character. -/
theorem c6_counterexample_whitespace_span_empty :
    nextToken (InputLexer.new " ".toList) = .tok ⟨.Whitespace, 0, 0⟩ ⟨" ".toList, 1⟩ ∧
    ¬(sliceChars " ".toList 0 0 = [' ']) := by decide

/-- Claim C6 (amended): for every token `next_token` produces *other than
`Whitespace` and `EOF`*, the span `[start, end)` is exactly the range of
positions consumed for it, so slicing the buffer at the span reproduces the
consumed substring; `Whitespace` tokens instead always carry the empty
`default_token!` span `0..0` regardless of the character consumed. -/
theorem c6_amended_token_spans (l : InputLexer) (t : Token) (l' : InputLexer)
    (h : nextToken l = .tok t l') :
    (t.typ ≠ .Whitespace → t.typ ≠ .EOF →
      t.start = l.index ∧ t.stop = l'.index ∧
      sliceChars l.source t.start t.stop = sliceChars l.source l.index l'.index) ∧
    (t.typ = .Whitespace → t.start = 0 ∧ t.stop = 0) := by
  obtain ⟨h1, h2, -⟩ := nextToken_tok_info h
  constructor
  · intro hw he
    obtain ⟨hs, hst⟩ := h1 hw he
    exact ⟨hs, hst, by rw [hs, hst]⟩
  · intro hw
    obtain ⟨hs, hst, -⟩ := h2 hw
    exact ⟨hs, hst⟩

/-- Witness for C6 (amended), at the `Identifier` token of input `ab`. -/
theorem c6_amended_witness :
    (Token.mk .Identifier 0 2).start = (InputLexer.new "ab".toList).index ∧
    (Token.mk .Identifier 0 2).stop = (InputLexer.mk "ab".toList 2).index :=
  ⟨((c6_amended_token_spans (InputLexer.new "ab".toList) ⟨.Identifier, 0, 2⟩
      ⟨"ab".toList, 2⟩ (by decide)).1 (by decide) (by decide)).1,
   ((c6_amended_token_spans (InputLexer.new "ab".toList) ⟨.Identifier, 0, 2⟩
      ⟨"ab".toList, 2⟩ (by decide)).1 (by decide) (by decide)).2.1⟩

/-- Claim C7 counterexample: for the unterminated string `"abc` (length 4)
the lexer reports span `0..3`, which stops one byte short of end of input
(`0..4` would cover to the end); same for the spec's example `echo "abc`
(length 9), reported as `5..8` instead of `5..9`. -/
theorem c7_counterexample_span_stops_short :
    nextToken (InputLexer.new "\"abc".toList) = .err ⟨0, 3⟩ ⟨"\"abc".toList, 4⟩ ∧
    ("\"abc".toList).length = 4 ∧
    (lexLine "echo \"abc".toList).2 = .errored ⟨5, 8⟩ ∧
    ("echo \"abc".toList).length = 9 := by decide

/-- Claim C7 (amended): a string opened by a quote that reaches end of input
without an unescaped closing quote is a hard lexical error: `next_token`
returns nothing, with a diagnostic whose span runs from the opening quote to
`index - 1` where `index` is the final scan position (at or past end of
input) — one short of covering the whole remaining input. -/
theorem c7_amended_unterminated_string (l : InputLexer)
    (hq : curChar l = '"' ∨ curChar l = '\'')
    (hu : (stringLoop (l.source.length + 2) (curChar l) (nextChar l)).2 = false) :
    nextToken l =
      .err ⟨l.index,
            (stringLoop (l.source.length + 2) (curChar l) (nextChar l)).1.index - 1⟩
        (stringLoop (l.source.length + 2) (curChar l) (nextChar l)).1 ∧
    l.source.length ≤ (stringLoop (l.source.length + 2) (curChar l) (nextChar l)).1.index := by
  have h2 : l.source.length ≤
      (stringLoop (l.source.length + 2) (curChar l) (nextChar l)).1.index := by
    have hres := stringLoop_unclosed (l.source.length + 2) (curChar l) (nextChar l)
      (by simp [nextChar]; omega) hu
    simpa [nextChar] using hres.1
  refine ⟨?_, h2⟩
  rw [nextToken_of_quote hq]
  simp only [stringArm]
  rw [if_neg (by simp [hu])]

/-- Witness for C7 (amended), at the input `"abc`. -/
theorem c7_amended_witness :
    nextToken (InputLexer.new "\"abc".toList) = .err ⟨0, 3⟩ ⟨"\"abc".toList, 4⟩ ∧
    ("\"abc".toList).length ≤ 4 :=
  c7_amended_unterminated_string (InputLexer.new "\"abc".toList)
    (Or.inl (by decide)) (by decide)

/-- Claim C8 counterexample: on the Linux configuration, `./x` does NOT lex
as a single Path token covering the whole expression: it yields two Path
tokens `0..1` (just the dot, via the identifier rule's file-extension
heuristic) and `1..3` (the separator and the rest, via the absolute-path
rule). -/
theorem c8_counterexample_two_path_tokens :
    lexLine "./x".toList = ([⟨.Path, 0, 1⟩, ⟨.Path, 1, 3⟩], .ok) ∧
    ¬(lexLine "./x".toList = ([⟨.Path, 0, 3⟩], .ok)) := by decide

/-- Claim C8 (amended): because `'.'` belongs to `IDENT_EXCEPT`, the
identifier arm captures the leading dot(s) first (reclassifying them as
`Path` via the contains-`'.'` heuristic) and the relative-path branch never
runs; `./x` lexes as Path `0..1` plus Path `1..3`, and `../x` as Path `0..2`
plus Path `2..4`. -/
theorem c8_amended_relative_paths_split :
    lexLine "./x".toList = ([⟨.Path, 0, 1⟩, ⟨.Path, 1, 3⟩], .ok) ∧
    lexLine "../x".toList = ([⟨.Path, 0, 2⟩, ⟨.Path, 2, 4⟩], .ok) := by decide

/-- Claim C9: the `cd` builtin with no argument changes to the configured
base directory (recording it both in the OS cwd and in `cur_dir`) whenever
the base directory is enterable; with an argument naming a directory that
cannot be entered, it returns the operational error from
`env::set_current_dir` and leaves both the engine's `cur_dir` and the OS cwd
unchanged — it does not silently succeed. -/
theorem c9_cd_builtin_behaviour :
    (∀ (env : Env) (e : Engine) (w : World) (stmt : Spanned Program),
      stmt.value.argv = [] → env.enterable env.baseDir = true →
      cd env e w stmt = ⟨{ e with cur_dir := env.baseDir }, ⟨env.baseDir⟩, [], .ok⟩) ∧
    (∀ (env : Env) (e : Engine) (w : World) (stmt : Spanned Program) (sp : Span),
      stmt.value.argv.get? 0 = some sp →
      env.enterable (sliceStr e.source sp) = false →
      cd env e w stmt = ⟨e, w, [], .err (.opFailed "set_current_dir")⟩) := by
  constructor
  · intro env e w stmt h1 h2
    simp [cd, h1, h2]
  · intro env e w stmt sp h1 h2
    simp only [List.get?_eq_getElem?] at h1
    simp [cd, h1, h2]

/-- Witness for C9, on the line `cd nonexistent` (whose argument slice is
`nonexistent`, not enterable under `env0`) and on an argument-less `cd`. -/
theorem c9_cd_witness :
    cd env0 ⟨"/tmp", ["/bin"], "cd nonexistent".toList⟩ world0
        ⟨⟨⟨0, 2⟩, [], .Inherit, .Inherit⟩, ⟨0, 2⟩⟩ =
      ⟨⟨"/home/user", ["/bin"], "cd nonexistent".toList⟩, ⟨"/home/user"⟩, [], .ok⟩ ∧
    cd env0 ⟨"/tmp", ["/bin"], "cd nonexistent".toList⟩ world0
        ⟨⟨⟨0, 2⟩, [⟨3, 14⟩], .Inherit, .Inherit⟩, ⟨0, 2⟩⟩ =
      ⟨⟨"/tmp", ["/bin"], "cd nonexistent".toList⟩, world0, [],
       .err (.opFailed "set_current_dir")⟩ :=
  ⟨c9_cd_builtin_behaviour.1 env0 ⟨"/tmp", ["/bin"], "cd nonexistent".toList⟩ world0
     ⟨⟨⟨0, 2⟩, [], .Inherit, .Inherit⟩, ⟨0, 2⟩⟩ rfl (by decide),
   c9_cd_builtin_behaviour.2 env0 ⟨"/tmp", ["/bin"], "cd nonexistent".toList⟩ world0
     ⟨⟨⟨0, 2⟩, [⟨3, 14⟩], .Inherit, .Inherit⟩, ⟨0, 2⟩⟩ ⟨3, 14⟩ rfl (by decide)⟩

/-- No builtin ever emits a `spawned` event: builtins run in-process (they
only print, change the directory, error, exit, or panic). -/
theorem runBuiltin_no_spawn (env : Env) (name : String) (e : Engine) (w : World)
    (stmt : Spanned Program) (exe : String) (args : List String) :
    .spawned exe args ∉ (runBuiltin env name e w stmt).events := by
  intro hmem
  simp only [runBuiltin, cd, ls, echo, clear, exitBuiltin] at hmem
  repeat' split at hmem
  all_goals simp_all

/-- The wait loop of `execute_pipeline` emits only `waitedOn` events, never a
`spawned` one. -/
theorem waitAll_no_spawn (env : Env) (lst : List String)
    (exe : String) (args : List String) :
    .spawned exe args ∉ (waitAll env lst).1 := by
  induction lst with
  | nil => simp [waitAll]
  | cons x rest ih =>
    intro hmem
    simp only [waitAll] at hmem
    split at hmem
    · simp only [List.mem_cons] at hmem
      rcases hmem with h | h
      · exact Event.noConfusion h
      · exact ih h
    · simp at hmem

/-- Claim C10: string-token arguments reach execution verbatim.  Part 1:
every `String` token's span starts at the opening quote character and ends
just past a closing occurrence of the same character, so the slice
`[start, end)` includes both quotes (and, being a raw slice, any backslash
escape bytes in between).  Part 2: any argument list `execute_single` hands
to a spawned process is exactly the raw source slices of the statement's
argument spans (builtins spawn nothing, so this covers every spawn of a
single-statement chain).  Part 3: the same holds for every process spawned
by the `execute_pipeline` walk — its argument list is the raw argv slices of
one of the chain's statements.  Part 4: a builtin sees its argument raw as
well — `echo` with an argument prints exactly the unprocessed source slice
of `argv[0]`, quotes and escape bytes included.  Nowhere is a quote stripped
or an escape processed. -/
theorem c10_raw_argument_text :
    (∀ (l : InputLexer) (t : Token) (l' : InputLexer),
      nextToken l = .tok t l' → t.typ = .String →
      t.start < l.source.length ∧
      l.source.getD t.start ' ' = curChar l ∧
      (curChar l = '"' ∨ curChar l = '\'') ∧
      t.stop - 1 < l.source.length ∧
      l.source.getD (t.stop - 1) ' ' = curChar l ∧
      t.start + 1 ≤ t.stop - 1) ∧
    (∀ (env : Env) (e : Engine) (w : World) (src : List Char)
       (stmt : Spanned Program) (exe : String) (args : List String),
      .spawned exe args ∈ (executeSingle env e w src stmt).events →
      args = stmt.value.argv.map (fun sp => sliceStr src sp)) ∧
    (∀ (env : Env) (e : Engine) (src : List Char)
       (chain : List (Spanned Program)) (prevStdout : Bool)
       (spawnedRev : List String) (exe : String) (args : List String),
      .spawned exe args ∈ (executePipelineLoop env e src chain prevStdout spawnedRev).1 →
      args ∈ chain.map (fun stmt => stmt.value.argv.map (fun sp => sliceStr src sp))) ∧
    (∀ (env : Env) (e : Engine) (w : World) (stmt : Spanned Program) (sp : Span),
      stmt.value.argv.get? 0 = some sp →
      (echo env e w stmt).events = [.printed (sliceStr e.source sp), .printed ""]) := by
  refine ⟨?_, ?_, ?_, ?_⟩
  · intro l t l' h htyp
    obtain ⟨-, -, h3⟩ := nextToken_tok_info h
    obtain ⟨hq, hloop, hs, hst⟩ := h3 htyp
    have hlt : l.index < l.source.length := by
      rcases hq with hc | hc
      · exact index_lt_of_curChar (p := fun c => c == '"') rfl rfl (by simp [hc])
      · exact index_lt_of_curChar (p := fun c => c == '\'') rfl rfl (by simp [hc])
    have hcl : (stringLoop (l.source.length + 2) (curChar l) (nextChar l)).2 = true := by
      rw [hloop]
    obtain ⟨j, hj1, hj2, hj3, hj4⟩ :=
      stringLoop_closed (l.source.length + 2) (curChar l) (nextChar l) hcl
    have hl' : l' = InputLexer.mk l.source (j + 1) := by
      have h' := hj3
      rw [hloop] at h'
      simpa [nextChar] using h'
    have hstop : t.stop = j + 1 := by rw [hst, hl']
    simp only [nextChar] at hj1 hj2 hj4
    refine ⟨by omega, ?_, hq, ?_, ?_, ?_⟩
    · rw [hs]
      exact (curChar_eq_getD hlt ' ').symm
    · omega
    · have : t.stop - 1 = j := by omega
      rw [this]
      exact hj4
    · omega
  · intro env e w src stmt exe args hmem
    by_cases hb : isBuiltin (sliceStr src stmt.value.program) = true
    · exfalso
      refine runBuiltin_no_spawn env (sliceStr src stmt.value.program) e w stmt exe args ?_
      simpa [executeSingle, hb] using hmem
    · have hb' : isBuiltin (sliceStr src stmt.value.program) = false := by
        simpa using hb
      cases hfe : findExecutable env e.path (sliceStr src stmt.value.program) with
      | error er =>
        simp [executeSingle, hb', hfe] at hmem
      | ok exe' =>
        simp only [executeSingle, hb', Bool.false_eq_true, if_false, hfe] at hmem
        repeat' split at hmem
        all_goals simp_all
  · intro env e src chain
    induction chain with
    | nil =>
      intro prevStdout spawnedRev exe args hmem
      exact absurd hmem (waitAll_no_spawn env spawnedRev.reverse exe args)
    | cons stmt rest ih =>
      intro prevStdout spawnedRev exe args hmem
      simp only [executePipelineLoop] at hmem
      by_cases hb : isBuiltin (sliceStr src stmt.value.program) = true
      · rw [if_pos hb] at hmem
        simp at hmem
      · rw [if_neg hb] at hmem
        cases hfe : findExecutable env e.path (sliceStr src stmt.value.program) with
        | error er =>
          rw [hfe] at hmem
          simp at hmem
        | ok exe' =>
          rw [hfe] at hmem
          repeat' split at hmem
          all_goals simp only [List.mem_cons, List.map_cons] at hmem ⊢
          all_goals
            first
              | (rcases hmem with h | h
                 · injection h with h1 h2
                   subst h2
                   exact Or.inl rfl
                 · exact Or.inr (ih _ _ _ _ h))
              | simp_all
  · intro env e w stmt sp h
    simp only [List.get?_eq_getElem?] at h
    simp [echo, h]

/-- Witness for C10: the `String` token of `"ab"` starts at its opening
quote; for the line `cat "ab"` the single argument `cat` receives is the raw
slice `"ab"`, quotes included; the one process spawned for `cat | cd`
receives the raw argv slices of a chain member; and the `echo` builtin for
`echo "hi"` prints the raw slice `"hi"`, quotes included. -/
theorem c10_witness :
    ("\"ab\"".toList.getD 0 ' ' = curChar (InputLexer.new "\"ab\"".toList)) ∧
    ["\"ab\""] = [Span.mk 4 8].map (fun sp => sliceStr "cat \"ab\"".toList sp) ∧
    ([] : List String) ∈
      ([⟨⟨⟨0, 3⟩, [], .Inherit, .PipeToStdin⟩, ⟨0, 5⟩⟩,
        ⟨⟨⟨6, 8⟩, [], .Inherit, .Inherit⟩, ⟨6, 8⟩⟩] : List (Spanned Program)).map
        (fun stmt => stmt.value.argv.map (fun sp => sliceStr "cat | cd".toList sp)) ∧
    (echo env0 ⟨"/home/user", ["/bin"], "echo \"hi\"".toList⟩ world0
        ⟨⟨⟨0, 4⟩, [⟨5, 9⟩], .Inherit, .Inherit⟩, ⟨0, 4⟩⟩).events =
      [.printed (sliceStr "echo \"hi\"".toList ⟨5, 9⟩), .printed ""] :=
  ⟨(c10_raw_argument_text.1 (InputLexer.new "\"ab\"".toList) ⟨.String, 0, 4⟩
      ⟨"\"ab\"".toList, 4⟩ (by decide) rfl).2.1,
   c10_raw_argument_text.2.1 env0 engine0 world0 "cat \"ab\"".toList
     ⟨⟨⟨0, 3⟩, [⟨4, 8⟩], .Inherit, .Inherit⟩, ⟨0, 3⟩⟩ "/bin/cat" ["\"ab\""] (by decide),
   c10_raw_argument_text.2.2.1 env0 engine0 "cat | cd".toList
     [⟨⟨⟨0, 3⟩, [], .Inherit, .PipeToStdin⟩, ⟨0, 5⟩⟩,
      ⟨⟨⟨6, 8⟩, [], .Inherit, .Inherit⟩, ⟨6, 8⟩⟩] false [] "/bin/cat" [] (by decide),
   c10_raw_argument_text.2.2.2 env0 ⟨"/home/user", ["/bin"], "echo \"hi\"".toList⟩ world0
     ⟨⟨⟨0, 4⟩, [⟨5, 9⟩], .Inherit, .Inherit⟩, ⟨0, 4⟩⟩ ⟨5, 9⟩ rfl⟩

/-- Claim C5 (evaluation of the code at its failing input): `next_token` is
not total — the character `:` matches no arm and hits the
`unreachable!("No matching token implementation found for this input")`
branch, and a whole line such as `a:` therefore panics the shell process
during lexing (the lexer's own unreachability assertion is violated). -/
theorem c5_unreachable_branch_panics :
    nextToken (InputLexer.new ":".toList) =
      .panic "No matching token implementation found for this input" ∧
    (processLine env0 engine0 world0 "a:".toList).outcome =
      .panicked "No matching token implementation found for this input" := by decide

end Phoenix
